import Mathlib

/-!
Shallow embedding of `script.py`, a Discourse ETL script: it fetches the
category list, paginates the topic listing with optional date-range and
keyword filters and optional per-topic enrichment, and saves the result in
three output formats.  HTTP responses are modelled explicitly: the page
responses as a list (one entry per successive request of the zero-indexed
page loop) and the user-detail endpoint as a function from user id to a
response.  Python exceptions that escape a function are modelled by
`Option`/`none`; dictionaries by association lists with insert-or-overwrite
update.
-/

set_option autoImplicit false

/-- Model of a Python `datetime.datetime` value: the fields compared by
Python's lexicographic datetime ordering. -/
structure Datetime where
  year : Nat
  month : Nat
  day : Nat
  hour : Nat
  minute : Nat
  second : Nat
  usec : Nat
deriving DecidableEq, Repr

/-- Python's strict `<` on datetimes: lexicographic on
(year, month, day, hour, minute, second, microsecond). -/
def dtLtB (a b : Datetime) : Bool :=
  if a.year ≠ b.year then decide (a.year < b.year)
  else if a.month ≠ b.month then decide (a.month < b.month)
  else if a.day ≠ b.day then decide (a.day < b.day)
  else if a.hour ≠ b.hour then decide (a.hour < b.hour)
  else if a.minute ≠ b.minute then decide (a.minute < b.minute)
  else if a.second ≠ b.second then decide (a.second < b.second)
  else decide (a.usec < b.usec)

/-- Python's `≤` on datetimes (total order, so `a ≤ b ↔ ¬ b < a`). -/
def dtLeB (a b : Datetime) : Bool := ! dtLtB b a

/-- Numeric value of a list of decimal digit characters. -/
def digitsVal (cs : List Char) : Nat :=
  cs.foldl (fun a c => a * 10 + (c.toNat - 48)) 0

/-- Gregorian leap-year test, as used by Python's calendar validation. -/
def isLeapYear (y : Nat) : Bool :=
  (y % 4 = 0 && y % 100 ≠ 0) || y % 400 = 0

/-- Number of days in a month, for `strptime`'s day-of-month validation. -/
def daysInMonth (y m : Nat) : Nat :=
  if m = 2 then (if isLeapYear y then 29 else 28)
  else if m = 4 || m = 6 || m = 9 || m = 11 then 30
  else 31

/-- Range validation performed by the `datetime` constructor that
`datetime.strptime` builds its result with: out-of-range fields raise
`ValueError`, modelled as `none`. -/
def mkDatetime (y mo d h mi s us : Nat) : Option Datetime :=
  if 1 ≤ mo ∧ mo ≤ 12 ∧ 1 ≤ d ∧ d ≤ daysInMonth y mo ∧
     h ≤ 23 ∧ mi ≤ 59 ∧ s ≤ 59 ∧ us ≤ 999999
  then some { year := y, month := mo, day := d, hour := h, minute := mi,
              second := s, usec := us }
  else none

/-- The `%f` directive: 1 to 6 fraction digits, padded on the right to
microseconds. -/
def fracToMicros (cs : List Char) : Nat :=
  digitsVal cs * 10 ^ (6 - cs.length)

/-- Model of `datetime.strptime(s, "%Y-%m-%dT%H:%M:%S.%fZ")` (line 122 of
`script.py`): the fixed wire format of a topic's `created_at`.  A string
that does not match the format raises `ValueError`, modelled as `none`. -/
def parseWireTimestamp (s : String) : Option Datetime :=
  match s.toList with
  | y1 :: y2 :: y3 :: y4 :: '-' :: mo1 :: mo2 :: '-' :: d1 :: d2 :: 'T' ::
    h1 :: h2 :: ':' :: mi1 :: mi2 :: ':' :: s1 :: s2 :: '.' :: rest =>
    if ([y1, y2, y3, y4, mo1, mo2, d1, d2, h1, h2, mi1, mi2, s1, s2].all
          Char.isDigit) = true ∧
       rest.getLast? = some 'Z' ∧
       1 ≤ rest.dropLast.length ∧ rest.dropLast.length ≤ 6 ∧
       (rest.dropLast.all Char.isDigit) = true
    then mkDatetime (digitsVal [y1, y2, y3, y4]) (digitsVal [mo1, mo2])
           (digitsVal [d1, d2]) (digitsVal [h1, h2]) (digitsVal [mi1, mi2])
           (digitsVal [s1, s2]) (fracToMicros rest.dropLast)
    else none
  | _ => none

/-- Model of `datetime.strptime(s, "%Y-%m-%d")` (lines 29-30 of
`script.py`): how the `START_DATE` / `END_DATE` configuration strings are
turned into datetimes.  Unspecified time fields default to 0, so a config
date denotes midnight at the start of that calendar day. -/
def parseConfigDate (s : String) : Option Datetime :=
  match s.toList with
  | y1 :: y2 :: y3 :: y4 :: '-' :: mo1 :: mo2 :: '-' :: d1 :: d2 :: [] =>
    if ([y1, y2, y3, y4, mo1, mo2, d1, d2].all Char.isDigit) = true
    then mkDatetime (digitsVal [y1, y2, y3, y4]) (digitsVal [mo1, mo2])
           (digitsVal [d1, d2]) 0 0 0 0
    else none
  | _ => none

/-- Does the char list `n` occur at the head of `h`? -/
def matchesAt : List Char → List Char → Bool
  | [], _ => true
  | _ :: _, [] => false
  | c :: cs, d :: ds => c = d && matchesAt cs ds

/-- Substring test on char lists: does `n` occur anywhere inside `h`?
Models Python's `in` operator on strings. -/
def containsSub (n : List Char) : List Char → Bool
  | [] => matchesAt n []
  | d :: ds => matchesAt n (d :: ds) || containsSub n ds

/-- Case-insensitive substring test: `k.lower() in t.lower()`. -/
def containsCI (k t : String) : Bool :=
  containsSub (k.toList.map Char.toLower) (t.toList.map Char.toLower)

/-- The value stored under the record key `category_id` (line 133 of
`script.py`): either the integer from the listing or, when the listing
lacks the key, the literal string `"Unknown"`. -/
inductive CategoryId where
  | id (n : Nat)
  | unknown
deriving DecidableEq, Repr

/-- The value stored under the record key `created_at`.  It starts as the
parsed topic-creation datetime (line 134); the user-detail merge (line 143)
can overwrite it with the raw registration-timestamp string returned by the
user endpoint, because `fetch_user_details` reuses the key `created_at`
(line 82). -/
inductive CreatedAt where
  | topicTime (dt : Datetime)
  | userReg (s : String)
deriving DecidableEq, Repr

/-- One topic as delivered on the wire by the listing endpoint, restricted
to the keys `script.py` accesses.  Keys read with `.get` or tested with
`in` may be absent and are modelled as `Option`; keys read with `[...]`
are required (a missing required key is outside the claims considered). -/
structure WireTopic where
  id : Nat
  title : String
  created_at : String
  posts_count : Nat
  category_id : Option Nat
  views_count : Option Nat
  last_poster_username : Option String
  last_poster_user_id : Option Nat
  description : Option String
  last_posted_at : Option String
deriving DecidableEq, Repr

/-- The `topic_details` dictionary built at lines 130-149 of `script.py`:
seven base keys always present, four keys optionally added by the
enrichment steps. -/
structure TopicDetails where
  id : Nat
  title : String
  category_id : CategoryId
  created_at : CreatedAt
  posts_count : Nat
  views_count : Nat
  user : String
  username : Option String
  post_count : Option Nat
  description : Option String
  last_posted_at : Option String
deriving DecidableEq, Repr

/-- Response of the per-user detail endpoint `/users/{id}.json`: a success
carrying the three fields `fetch_user_details` extracts, or a non-200
status. -/
inductive UserResp where
  | ok (username : String) (created_at : String) (post_count : Nat)
  | err
deriving DecidableEq, Repr

/-- The dictionary returned by a successful `fetch_user_details` call
(lines 80-84): keys `username`, `created_at`, `post_count`. -/
structure UserDetails where
  username : String
  created_at : String
  post_count : Nat
deriving DecidableEq, Repr

/-- `fetch_user_details` (lines 65-87): on a 200 response the three-field
dictionary, on any other status an empty dictionary, modelled as `none`. -/
def fetch_user_details (users : Nat → UserResp) (uid : Nat) :
    Option UserDetails :=
  match users uid with
  | UserResp.ok u c p => some { username := u, created_at := c, post_count := p }
  | UserResp.err => none

/-- `topic_details.update(user_details)` (line 143).  An empty dictionary
merges nothing; a full one sets `username` and `post_count` and OVERWRITES
the existing `created_at` entry, because the user dictionary reuses that
key for the registration timestamp. -/
def mergeUserDetails (r : TopicDetails) : Option UserDetails → TopicDetails
  | none => r
  | some u => { r with username := some u.username,
                       created_at := CreatedAt.userReg u.created_at,
                       post_count := some u.post_count }

/-- Response of one request of the paginated listing endpoint: `ok` with
the (possibly empty) value of `data["topic_list"]["topics"]` — a response
missing those keys behaves as `ok []` via the `.get` defaults at line 115 —
or `err` for a non-200 status. -/
inductive PageResp where
  | ok (topics : List WireTopic)
  | err
deriving DecidableEq, Repr

/-- The run's configuration, read from the environment at module load
(lines 13-30 of `script.py`): the two dates already parsed by
`parseConfigDate`, the optional keyword, and the three enrichment flags
used by `fetch_all_topics`. -/
structure Config where
  start_date : Option Datetime
  end_date : Option Datetime
  keyword : Option String
  fetch_user_details : Bool
  fetch_topic_description : Bool
  fetch_last_posted_at : Bool
deriving Repr

/-- The remote side of a run: the successive page responses (the loop asks
for pages 0, 1, 2, ... in order; a response list exhausted early behaves as
an empty page) and the user-detail endpoint. -/
structure Env where
  pages : List PageResp
  users : Nat → UserResp

/-- The skip test at lines 123-124: `start_date and topic_created_at < start_date`. -/
def startSkip : Option Datetime → Datetime → Bool
  | none, _ => false
  | some s, dt => dtLtB dt s

/-- The skip test at lines 125-126: `end_date and topic_created_at > end_date`. -/
def endSkip : Option Datetime → Datetime → Bool
  | none, _ => false
  | some e, dt => dtLtB e dt

/-- The skip test at lines 127-128:
`keyword and keyword.lower() not in topic["title"].lower()` — an unset or
empty keyword is falsy and never skips. -/
def keywordSkip : Option String → String → Bool
  | none, _ => false
  | some k, title => if k = "" then false else ! containsCI k title

/-- The base `topic_details` dictionary of lines 130-138, built from the
listing fields with the `.get` defaults: missing `category_id` becomes the
string `"Unknown"`, missing `views_count` becomes 0, missing
`last_poster_username` becomes `"Unknown"`. -/
def buildBase (t : WireTopic) (dt : Datetime) : TopicDetails :=
  { id := t.id, title := t.title,
    category_id := match t.category_id with
      | some n => CategoryId.id n
      | none => CategoryId.unknown,
    created_at := CreatedAt.topicTime dt,
    posts_count := t.posts_count,
    views_count := t.views_count.getD 0,
    user := t.last_poster_username.getD "Unknown",
    username := none, post_count := none,
    description := none, last_posted_at := none }

/-- The three optional enrichment steps of lines 140-149, in program
order: the user-detail merge (guarded by the flag and by the truthiness of
`last_poster_user_id`, so id 0 is skipped), then the `description` copy,
then the `last_posted_at` copy. -/
def applyEnrich (cfg : Config) (users : Nat → UserResp) (t : WireTopic)
    (r : TopicDetails) : TopicDetails :=
  let r1 := if cfg.fetch_user_details then
      match t.last_poster_user_id with
      | some uid => if uid = 0 then r
          else mergeUserDetails r (fetch_user_details users uid)
      | none => r
    else r
  let r2 := if cfg.fetch_topic_description then
      match t.description with
      | some d => { r1 with description := some d }
      | none => r1
    else r1
  let r3 := if cfg.fetch_last_posted_at then
      match t.last_posted_at with
      | some lp => { r2 with last_posted_at := some lp }
      | none => r2
    else r2
  r3

/-- The full record appended for a topic that passed all filters. -/
def buildRecord (cfg : Config) (users : Nat → UserResp) (t : WireTopic)
    (dt : Datetime) : TopicDetails :=
  applyEnrich cfg users t (buildBase t dt)

/-- The per-topic body of the page loop (lines 120-151): parse the
creation timestamp (`none` = uncaught `ValueError`), apply the three
filters in order (`some none` = `continue`), otherwise build and enrich
the record (`some (some r)` = appended). -/
def processTopic (cfg : Config) (users : Nat → UserResp) (t : WireTopic) :
    Option (Option TopicDetails) :=
  match parseWireTimestamp t.created_at with
  | none => none
  | some dt =>
    if startSkip cfg.start_date dt then some none
    else if endSkip cfg.end_date dt then some none
    else if keywordSkip cfg.keyword t.title then some none
    else some (some (buildRecord cfg users t dt))

/-- One page's worth of the loop body: the records appended for this page,
in topic order, or `none` when a timestamp parse fails anywhere on the
page (the exception discards the whole call's result). -/
def processPage (cfg : Config) (users : Nat → UserResp) :
    List WireTopic → Option (List TopicDetails)
  | [] => some []
  | t :: ts =>
    match processTopic cfg users t with
    | none => none
    | some none => processPage cfg users ts
    | some (some r) => (processPage cfg users ts).map (fun l => r :: l)

/-- The `while True` pagination loop of `fetch_all_topics`
(lines 102-156): stop with the accumulated list on a non-200 status or on
an empty topic list, otherwise process the page, prepend its records and
continue with the next page.  `none` models the uncaught `ValueError` of a
timestamp parse failure escaping the function. -/
def fetchLoop (cfg : Config) (users : Nat → UserResp) :
    List PageResp → Option (List TopicDetails)
  | [] => some []
  | PageResp.err :: _ => some []
  | PageResp.ok ts :: ps =>
    if ts.isEmpty then some []
    else
      match processPage cfg users ts with
      | none => none
      | some rs => (fetchLoop cfg users ps).map (fun acc => rs ++ acc)

/-- `fetch_all_topics` (lines 89-156) run against an explicit environment. -/
def fetch_all_topics (cfg : Config) (env : Env) :
    Option (List TopicDetails) :=
  fetchLoop cfg env.users env.pages

/-- Lookup in an association list modelling a Python dictionary. -/
def alGet {κ α : Type} [DecidableEq κ] (d : List (κ × α)) (k : κ) : Option α :=
  (d.find? (fun p => decide (p.1 = k))).map (fun p => p.2)

/-- Insert-or-overwrite on an association list, preserving insertion order
as a Python dictionary does. -/
def alSet {κ α : Type} [DecidableEq κ] : List (κ × α) → κ → α → List (κ × α)
  | [], k, v => [(k, v)]
  | p :: t, k, v => if p.1 = k then (k, v) :: t else p :: alSet t k v

/-- Response of the category-listing endpoint: a success carrying the
`(id, name)` pairs of `category_list.categories`, or a non-200 status. -/
inductive CatResp where
  | ok (cats : List (Nat × String))
  | err
deriving DecidableEq, Repr

/-- `list_all_categories` (lines 46-63): on a 200 response the dictionary
comprehension `{category["id"]: category["name"]}`, on any other status an
empty mapping. -/
def list_all_categories : CatResp → List (Nat × String)
  | CatResp.ok cs => cs.foldl (fun d p => alSet d p.1 p.2) []
  | CatResp.err => []

/-- `categories.get(topic["category_id"], "Unknown Category")` as used at
lines 172, 186 and 211: an integer id is looked up in the category map, and
the string `"Unknown"` sentinel (which is never an integer key) as well as
an unmapped integer fall back to `"Unknown Category"`. -/
def lookupCategory (cats : List (Nat × String)) : CategoryId → String
  | CategoryId.unknown => "Unknown Category"
  | CategoryId.id n => (alGet cats n).getD "Unknown Category"

/-- The initialisation at line 169:
`category_count = {category: 0 for category in categories.values()}`. -/
def initCounts (cats : List (Nat × String)) : List (String × Nat) :=
  cats.foldl (fun d p => alSet d p.2 0) []

/-- The grouping loop of lines 171-176.  For each topic the resolved
category name indexes both dictionaries; `grouped_topics` is extended with
a fresh empty list when the name is new, but
`category_count[category_name] += 1` raises `KeyError` (modelled as
`none`) when the name is not a key of `category_count`. -/
def groupFold (cats : List (Nat × String)) :
    List TopicDetails → List (String × List Nat) → List (String × Nat) →
    Option (List (String × List Nat) × List (String × Nat))
  | [], g, c => some (g, c)
  | t :: ts, g, c =>
    let name := lookupCategory cats t.category_id
    let g1 := match alGet g name with
      | none => alSet g name [t.id]
      | some l => alSet g name (l ++ [t.id])
    match alGet c name with
    | none => none
    | some k => groupFold cats ts g1 (alSet c name (k + 1))

/-- One row of the CSV file (lines 210-224), keeping the semantic values;
the rendering of absent optional values as the `"N/A"` placeholder and the
formatted `User Details` cell are direct serialisations of these fields. -/
structure CsvRow where
  topicId : Nat
  title : String
  category : String
  postCount : Nat
  views : Nat
  user : String
  createdAt : CreatedAt
  description : Option String
  lastPostedAt : Option String
  username : Option String
  userPostCount : Option Nat
deriving DecidableEq, Repr

/-- The CSV row built for one topic at lines 212-223. -/
def csvRow (cats : List (Nat × String)) (t : TopicDetails) : CsvRow :=
  { topicId := t.id, title := t.title,
    category := lookupCategory cats t.category_id,
    postCount := t.posts_count, views := t.views_count, user := t.user,
    createdAt := t.created_at, description := t.description,
    lastPostedAt := t.last_posted_at, username := t.username,
    userPostCount := t.post_count }

/-- The data written to the three output files by
`save_topics_and_categories`: the text report's category section, its
per-topic section (each topic with its resolved category name), its
grouped-by-category section with the per-category counts, the CSV rows,
and the JSON dump of the topic list. -/
structure SaveOutputs where
  textCategories : List (Nat × String)
  textTopics : List (TopicDetails × String)
  textGrouped : List (String × List Nat)
  textCounts : List (String × Nat)
  csvRows : List CsvRow
  jsonTopics : List TopicDetails
deriving DecidableEq, Repr

/-- `save_topics_and_categories` (lines 159-232).  The grouping loop runs
first (lines 167-176), before any file is opened; a `KeyError` there
(modelled as `none`) aborts the function with nothing written.  Otherwise
the three outputs are produced from the same in-memory list and map. -/
def save_topics_and_categories (topics : List TopicDetails)
    (cats : List (Nat × String)) : Option SaveOutputs :=
  match groupFold cats topics [] (initCounts cats) with
  | none => none
  | some (g, c) =>
    some { textCategories := cats,
           textTopics := topics.map (fun t => (t, lookupCategory cats t.category_id)),
           textGrouped := g,
           textCounts := c,
           csvRows := topics.map (csvRow cats),
           jsonTopics := topics }

/-- Outcome of one run of the script's `__main__` block. -/
inductive RunResult where
  | exported (out : SaveOutputs)
  | reportedFailure
  | exportCrash
  | parseException
deriving DecidableEq, Repr

/-- The `__main__` block (lines 235-246): fetch categories, fetch topics
(an escaping `ValueError` kills the run before the guard), then export
exactly when both results are truthy, i.e. non-empty, and otherwise log
`"Failed to fetch topics or categories."`; an exception inside the export
(the grouping `KeyError`) crashes the run with no file written. -/
def mainRun (cfg : Config) (catResp : CatResp) (env : Env) : RunResult :=
  let categories := list_all_categories catResp
  match fetch_all_topics cfg env with
  | none => RunResult.parseException
  | some topics =>
    if topics ≠ [] ∧ categories ≠ [] then
      match save_topics_and_categories topics categories with
      | some o => RunResult.exported o
      | none => RunResult.exportCrash
    else RunResult.reportedFailure

/-- Specification helper for stating the pagination claims: the filtered
records accumulated over a sequence of pages that the loop fully consumes,
i.e. each page has a 200 status, a non-empty topic list, and no timestamp
parse failure.  `consumedPages pre = some acc` says the loop requests
every page of `pre` in order and has accumulated exactly `acc` afterwards. -/
def consumedPages (cfg : Config) (users : Nat → UserResp) :
    List PageResp → Option (List TopicDetails)
  | [] => some []
  | PageResp.err :: _ => none
  | PageResp.ok ts :: ps =>
    if ts.isEmpty then none
    else
      match processPage cfg users ts, consumedPages cfg users ps with
      | some rs, some acc => some (rs ++ acc)
      | _, _ => none

/-- A user-detail endpoint on which every request fails. -/
def noUsers : Nat → UserResp := fun _ => UserResp.err

/-- A configuration with no filters and every enrichment flag disabled. -/
def cfgPlain : Config :=
  { start_date := none, end_date := none, keyword := none,
    fetch_user_details := false, fetch_topic_description := false,
    fetch_last_posted_at := false }

/-- A well-formed sample wire topic used as the base of concrete inputs. -/
def sampleTopic : WireTopic :=
  { id := 1, title := "Hello world", created_at := "2024-01-15T12:30:00.000Z",
    posts_count := 3, category_id := some 1, views_count := some 7,
    last_poster_username := some "bob", last_poster_user_id := none,
    description := none, last_posted_at := none }

/-- The sample topic's parsed creation datetime. -/
def sampleDt : Datetime := ⟨2024, 1, 15, 12, 30, 0, 0⟩

/-- A second sample topic, for multi-page inputs. -/
def sampleTopic2 : WireTopic :=
  { sampleTopic with id := 2, title := "Second topic" }

/-- A wire topic whose creation timestamp does not match the wire format. -/
def badTopic : WireTopic :=
  { sampleTopic with created_at := "not-a-date" }

/-- A wire topic created at 10:00 on 2024-01-02. -/
def topicOnEndDate : WireTopic :=
  { sampleTopic with created_at := "2024-01-02T10:00:00.000Z" }

/-- A wire topic with a description and a last-posted-at value present. -/
def describedTopic : WireTopic :=
  { sampleTopic with description := some "About things",
                     last_posted_at := some "2024-01-16T00:00:00.000Z" }

/-- A wire topic with a last-poster user id present. -/
def topicWithPoster : WireTopic :=
  { sampleTopic with last_poster_user_id := some 42 }

/-- A wire topic whose category id 999 is not in the category map used by
the concrete runs below. -/
def unknownCatWire : WireTopic :=
  { sampleTopic with category_id := some 999 }

/-- A topic record whose category id 999 is not in the category map used
by the concrete runs below. -/
def unknownCatRecord : TopicDetails :=
  { id := 7, title := "Orphan", category_id := CategoryId.id 999,
    created_at := CreatedAt.topicTime sampleDt, posts_count := 1,
    views_count := 0, user := "bob", username := none, post_count := none,
    description := none, last_posted_at := none }

/-- Configuration filtering on 2024-01-01 .. 2024-01-02. -/
def cfgDates : Config :=
  { cfgPlain with start_date := parseConfigDate "2024-01-01",
                  end_date := parseConfigDate "2024-01-02" }

/-- Configuration filtering on 2024-01-01 .. 2024-02-01. -/
def cfgMonth : Config :=
  { cfgPlain with start_date := parseConfigDate "2024-01-01",
                  end_date := parseConfigDate "2024-02-01" }

/-- Configuration with only the description enrichment enabled. -/
def cfgDesc : Config :=
  { cfgPlain with fetch_topic_description := true }

/-- Configuration with only the user-detail enrichment enabled. -/
def cfgUser : Config :=
  { cfgPlain with fetch_user_details := true }

/-- A user-detail endpoint on which every request succeeds with a fixed
registration timestamp of 2010-01-01. -/
def aliceUsers : Nat → UserResp :=
  fun _ => UserResp.ok "alice" "2010-01-01T00:00:00.000Z" 5

theorem processTopic_kept {cfg : Config} {users : Nat → UserResp}
    {t : WireTopic} {r : TopicDetails} :
    processTopic cfg users t = some (some r) ↔
      ∃ dt, parseWireTimestamp t.created_at = some dt ∧
        startSkip cfg.start_date dt = false ∧
        endSkip cfg.end_date dt = false ∧
        keywordSkip cfg.keyword t.title = false ∧
        r = buildRecord cfg users t dt := by
  constructor
  · intro h
    cases hp : parseWireTimestamp t.created_at with
    | none => simp [processTopic, hp] at h
    | some dt =>
      simp only [processTopic, hp] at h
      split_ifs at h with h1 h2 h3
      · simp at h
      · simp at h
      · simp at h
      · simp only [Option.some.injEq] at h
        exact ⟨dt, rfl, by simpa using h1, by simpa using h2,
               by simpa using h3, h.symm⟩
  · rintro ⟨dt, hp, h1, h2, h3, rfl⟩
    simp [processTopic, hp, h1, h2, h3]

theorem processPage_mem {cfg : Config} {users : Nat → UserResp}
    {ts : List WireTopic} {rs : List TopicDetails} {r : TopicDetails}
    (hp : processPage cfg users ts = some rs) (hr : r ∈ rs) :
    ∃ t, t ∈ ts ∧ processTopic cfg users t = some (some r) := by
  induction ts generalizing rs with
  | nil =>
    simp only [processPage, Option.some.injEq] at hp
    subst hp
    simp at hr
  | cons t ts ih =>
    simp only [processPage] at hp
    cases ht : processTopic cfg users t with
    | none => rw [ht] at hp; cases hp
    | some o =>
      rw [ht] at hp
      cases o with
      | none =>
        obtain ⟨t2, ht2, h2⟩ := ih hp hr
        exact ⟨t2, List.mem_cons_of_mem _ ht2, h2⟩
      | some r2 =>
        cases hrest : processPage cfg users ts with
        | none => rw [hrest] at hp; cases hp
        | some rs2 =>
          rw [hrest] at hp
          simp only [Option.map, Option.some.injEq] at hp
          subst hp
          rcases List.mem_cons.mp hr with h | h
          · exact ⟨t, List.mem_cons_self t ts, by rw [ht, h]⟩
          · obtain ⟨t2, ht2, h2⟩ := ih hrest h
            exact ⟨t2, List.mem_cons_of_mem _ ht2, h2⟩

theorem processPage_complete {cfg : Config} {users : Nat → UserResp}
    {ts : List WireTopic} {rs : List TopicDetails} {t : WireTopic}
    {r : TopicDetails} (hp : processPage cfg users ts = some rs)
    (ht : t ∈ ts) (hk : processTopic cfg users t = some (some r)) :
    r ∈ rs := by
  induction ts generalizing rs with
  | nil => simp at ht
  | cons t2 ts ih =>
    simp only [processPage] at hp
    cases ht2 : processTopic cfg users t2 with
    | none => rw [ht2] at hp; cases hp
    | some o =>
      rw [ht2] at hp
      rcases List.mem_cons.mp ht with h | h
      · subst h
        rw [hk] at ht2
        cases ht2
        cases hrest : processPage cfg users ts with
        | none => rw [hrest] at hp; cases hp
        | some rs2 =>
          rw [hrest] at hp
          simp only [Option.map, Option.some.injEq] at hp
          subst hp
          exact List.mem_cons_self _ _
      · cases o with
        | none => exact ih hp h
        | some r2 =>
          cases hrest : processPage cfg users ts with
          | none => rw [hrest] at hp; cases hp
          | some rs2 =>
            rw [hrest] at hp
            simp only [Option.map, Option.some.injEq] at hp
            subst hp
            exact List.mem_cons_of_mem _ (ih hrest h)

theorem processPage_none_of_badparse {cfg : Config} {users : Nat → UserResp}
    {ts : List WireTopic} {t : WireTopic} (ht : t ∈ ts)
    (hb : parseWireTimestamp t.created_at = none) :
    processPage cfg users ts = none := by
  induction ts with
  | nil => simp at ht
  | cons t2 ts ih =>
    rcases List.mem_cons.mp ht with h | h
    · subst h
      simp [processPage, processTopic, hb]
    · simp only [processPage]
      cases ht2 : processTopic cfg users t2 with
      | none => rfl
      | some o =>
        cases o with
        | none => exact ih h
        | some r => rw [ih h]; rfl

theorem fetchLoop_mem {cfg : Config} {users : Nat → UserResp}
    {pages : List PageResp} {res : List TopicDetails} {r : TopicDetails}
    (hf : fetchLoop cfg users pages = some res) (hr : r ∈ res) :
    ∃ t, processTopic cfg users t = some (some r) := by
  induction pages generalizing res with
  | nil =>
    simp only [fetchLoop, Option.some.injEq] at hf
    subst hf
    simp at hr
  | cons p ps ih =>
    cases p with
    | err =>
      simp only [fetchLoop, Option.some.injEq] at hf
      subst hf
      simp at hr
    | ok ts =>
      simp only [fetchLoop] at hf
      by_cases he : ts.isEmpty = true
      · rw [if_pos he] at hf
        simp only [Option.some.injEq] at hf
        subst hf
        simp at hr
      · rw [if_neg he] at hf
        cases hpp : processPage cfg users ts with
        | none => rw [hpp] at hf; cases hf
        | some rs =>
          rw [hpp] at hf
          cases hrest : fetchLoop cfg users ps with
          | none => rw [hrest] at hf; cases hf
          | some acc =>
            rw [hrest] at hf
            simp only [Option.map, Option.some.injEq] at hf
            subst hf
            rcases List.mem_append.mp hr with h | h
            · obtain ⟨t, _, h2⟩ := processPage_mem hpp h
              exact ⟨t, h2⟩
            · exact ih hrest h

theorem consumedPages_fetchLoop_err {cfg : Config} {users : Nat → UserResp}
    {pre : List PageResp} {acc : List TopicDetails}
    (h : consumedPages cfg users pre = some acc) (ps : List PageResp) :
    fetchLoop cfg users (pre ++ PageResp.err :: ps) = some acc := by
  induction pre generalizing acc with
  | nil =>
    simp only [consumedPages, Option.some.injEq] at h
    subst h
    simp [fetchLoop]
  | cons p pre ih =>
    cases p with
    | err => simp [consumedPages] at h
    | ok ts =>
      simp only [consumedPages] at h
      by_cases he : ts.isEmpty = true
      · rw [if_pos he] at h; cases h
      · rw [if_neg he] at h
        cases hpp : processPage cfg users ts with
        | none => rw [hpp] at h; cases h
        | some rs =>
          rw [hpp] at h
          cases hrest : consumedPages cfg users pre with
          | none => rw [hrest] at h; cases h
          | some acc2 =>
            rw [hrest] at h
            simp only [Option.some.injEq] at h
            subst h
            simp only [List.cons_append, fetchLoop, if_neg he, hpp]
            simp only [List.append_eq]
            rw [ih hrest]
            rfl

theorem consumedPages_fetchLoop_empty {cfg : Config} {users : Nat → UserResp}
    {pre : List PageResp} {acc : List TopicDetails}
    (h : consumedPages cfg users pre = some acc) (ps : List PageResp) :
    fetchLoop cfg users (pre ++ PageResp.ok [] :: ps) = some acc := by
  induction pre generalizing acc with
  | nil =>
    simp only [consumedPages, Option.some.injEq] at h
    subst h
    simp [fetchLoop]
  | cons p pre ih =>
    cases p with
    | err => simp [consumedPages] at h
    | ok ts =>
      simp only [consumedPages] at h
      by_cases he : ts.isEmpty = true
      · rw [if_pos he] at h; cases h
      · rw [if_neg he] at h
        cases hpp : processPage cfg users ts with
        | none => rw [hpp] at h; cases h
        | some rs =>
          rw [hpp] at h
          cases hrest : consumedPages cfg users pre with
          | none => rw [hrest] at h; cases h
          | some acc2 =>
            rw [hrest] at h
            simp only [Option.some.injEq] at h
            subst h
            simp only [List.cons_append, fetchLoop, if_neg he, hpp]
            simp only [List.append_eq]
            rw [ih hrest]
            rfl

theorem consumedPages_fetchLoop_badpage {cfg : Config} {users : Nat → UserResp}
    {pre : List PageResp} {acc : List TopicDetails} {ts : List WireTopic}
    (h : consumedPages cfg users pre = some acc)
    (hbad : processPage cfg users ts = none) (ps : List PageResp) :
    fetchLoop cfg users (pre ++ PageResp.ok ts :: ps) = none := by
  have hne : ts.isEmpty = false := by
    cases ts with
    | nil => simp [processPage] at hbad
    | cons a l => rfl
  induction pre generalizing acc with
  | nil =>
    simp only [List.nil_append, fetchLoop, hne, if_neg, Bool.false_eq_true,
               not_false_iff, hbad]
  | cons p pre ih =>
    cases p with
    | err => simp [consumedPages] at h
    | ok ts2 =>
      simp only [consumedPages] at h
      by_cases he : ts2.isEmpty = true
      · rw [if_pos he] at h; cases h
      · rw [if_neg he] at h
        cases hpp : processPage cfg users ts2 with
        | none => rw [hpp] at h; cases h
        | some rs =>
          rw [hpp] at h
          cases hrest : consumedPages cfg users pre with
          | none => rw [hrest] at h; cases h
          | some acc2 =>
            simp only [List.cons_append, fetchLoop, if_neg he, hpp]
            simp only [List.append_eq]
            rw [ih hrest]
            rfl

theorem consumedPages_complete {cfg : Config} {users : Nat → UserResp}
    {pre : List PageResp} {acc : List TopicDetails} {ts : List WireTopic}
    {t : WireTopic} {r : TopicDetails}
    (h : consumedPages cfg users pre = some acc)
    (hpage : PageResp.ok ts ∈ pre) (ht : t ∈ ts)
    (hk : processTopic cfg users t = some (some r)) :
    r ∈ acc := by
  induction pre generalizing acc with
  | nil => simp at hpage
  | cons p pre ih =>
    cases p with
    | err => simp [consumedPages] at h
    | ok ts2 =>
      simp only [consumedPages] at h
      by_cases he : ts2.isEmpty = true
      · rw [if_pos he] at h; cases h
      · rw [if_neg he] at h
        cases hpp : processPage cfg users ts2 with
        | none => rw [hpp] at h; cases h
        | some rs =>
          rw [hpp] at h
          cases hrest : consumedPages cfg users pre with
          | none => rw [hrest] at h; cases h
          | some acc2 =>
            rw [hrest] at h
            simp only [Option.some.injEq] at h
            subst h
            rcases List.mem_cons.mp hpage with hh | hh
            · have hts : ts = ts2 := by
                cases hh
                rfl
              subst hts
              exact List.mem_append_left _ (processPage_complete hpp ht hk)
            · exact List.mem_append_right _ (ih hrest hh)

/-- Claim C1 (code bug).  The claim says the export completes even when a
topic's `category_id` is not a key of the category map, with the topic
placed in the `"Unknown Category"` bucket of all three outputs.  In the
code, the unresolvable id does fall back to the `"Unknown Category"` label
(first conjunct), but `"Unknown Category"` is not a key of the
`category_count` dictionary initialised from `categories.values()`, so
`category_count[category_name] += 1` raises `KeyError` and
`save_topics_and_categories` aborts before opening any file (second
conjunct). -/
theorem C1_unknown_category_aborts_export :
    lookupCategory [(1, "General")] (CategoryId.id 999) = "Unknown Category" ∧
    save_topics_and_categories [unknownCatRecord] [(1, "General")] = none := by
  decide

/-- Claim C2 counterexample.  With `END_DATE = "2024-01-02"` the parsed
bound is midnight 2024-01-02T00:00:00, so a topic created at 10:00 on the
end date — within bounds according to the claim — is skipped by the
`topic_created_at > end_date` test and the returned list is empty. -/
theorem C2_end_of_day_excluded :
    parseConfigDate "2024-01-02" = some ⟨2024, 1, 2, 0, 0, 0, 0⟩ ∧
    parseWireTimestamp topicOnEndDate.created_at =
      some ⟨2024, 1, 2, 10, 0, 0, 0⟩ ∧
    keywordSkip cfgDates.keyword topicOnEndDate.title = false ∧
    fetch_all_topics cfgDates
      { pages := [PageResp.ok [topicOnEndDate], PageResp.ok []],
        users := noUsers } = some [] := by
  decide

/-- Claim C2 as amended: with both dates set, the inclusive bounds are the
midnight instants `strptime` produces for the two `YYYY-MM-DD` strings.
Every topic on the successfully consumed pages whose parsed creation time
lies within those instants and which passes the keyword filter appears in
the list returned when pagination then ends at an empty page. -/
theorem C2_filtered_completeness {cfg : Config} {users : Nat → UserResp}
    {pre : List PageResp} {acc : List TopicDetails} {ts : List WireTopic}
    {t : WireTopic} {dt s e : Datetime} (ps : List PageResp)
    (hs : cfg.start_date = some s) (hend : cfg.end_date = some e)
    (hpre : consumedPages cfg users pre = some acc)
    (hpage : PageResp.ok ts ∈ pre) (ht : t ∈ ts)
    (hparse : parseWireTimestamp t.created_at = some dt)
    (hlo : dtLeB s dt = true) (hhi : dtLeB dt e = true)
    (hkw : keywordSkip cfg.keyword t.title = false) :
    fetchLoop cfg users (pre ++ PageResp.ok [] :: ps) = some acc ∧
    buildRecord cfg users t dt ∈ acc := by
  constructor
  · exact consumedPages_fetchLoop_empty hpre ps
  · apply consumedPages_complete hpre hpage ht
    apply processTopic_kept.mpr
    refine ⟨dt, hparse, ?_, ?_, hkw, rfl⟩
    · rw [hs]
      show dtLtB dt s = false
      simpa [dtLeB] using hlo
    · rw [hend]
      show dtLtB e dt = false
      simpa [dtLeB] using hhi

/-- Witness for `C2_filtered_completeness` at a concrete run: one page
holding `sampleTopic`, created 2024-01-15, bounds 2024-01-01..2024-02-01. -/
theorem C2_filtered_completeness_witness :
    cfgMonth.start_date = some ⟨2024, 1, 1, 0, 0, 0, 0⟩ ∧
    cfgMonth.end_date = some ⟨2024, 2, 1, 0, 0, 0, 0⟩ ∧
    consumedPages cfgMonth noUsers [PageResp.ok [sampleTopic]] =
      some [buildRecord cfgMonth noUsers sampleTopic sampleDt] ∧
    (fetchLoop cfgMonth noUsers
        ([PageResp.ok [sampleTopic]] ++ PageResp.ok [] :: []) =
      some [buildRecord cfgMonth noUsers sampleTopic sampleDt] ∧
    buildRecord cfgMonth noUsers sampleTopic sampleDt ∈
      [buildRecord cfgMonth noUsers sampleTopic sampleDt]) := by
  refine ⟨by decide, by decide, by decide, ?_⟩
  have hs : cfgMonth.start_date = some ⟨2024, 1, 1, 0, 0, 0, 0⟩ := by decide
  have hend : cfgMonth.end_date = some ⟨2024, 2, 1, 0, 0, 0, 0⟩ := by decide
  have hpre : consumedPages cfgMonth noUsers [PageResp.ok [sampleTopic]] =
      some [buildRecord cfgMonth noUsers sampleTopic sampleDt] := by decide
  have hpage : PageResp.ok [sampleTopic] ∈ [PageResp.ok [sampleTopic]] := by
    decide
  have ht : sampleTopic ∈ [sampleTopic] := by decide
  have hparse : parseWireTimestamp sampleTopic.created_at = some sampleDt := by
    decide
  exact C2_filtered_completeness [] hs hend hpre hpage ht hparse
    (by decide) (by decide) (by decide)

/-- Claim C3: with both dates set, every record in a returned list was
built from a wire topic whose parsed creation time lies within
`[start_date, end_date]` inclusive — the date-range filter is sound over
whatever the wire delivered. -/
theorem C3_date_range_sound {cfg : Config} {users : Nat → UserResp}
    {pages : List PageResp} {res : List TopicDetails} {r : TopicDetails}
    {s e : Datetime} (hs : cfg.start_date = some s)
    (hend : cfg.end_date = some e)
    (hf : fetchLoop cfg users pages = some res) (hr : r ∈ res) :
    ∃ t dt, parseWireTimestamp t.created_at = some dt ∧
      dtLeB s dt = true ∧ dtLeB dt e = true ∧
      r = buildRecord cfg users t dt := by
  obtain ⟨t, hk⟩ := fetchLoop_mem hf hr
  obtain ⟨dt, hparse, h1, h2, h3, rfl⟩ := processTopic_kept.mp hk
  refine ⟨t, dt, hparse, ?_, ?_, rfl⟩
  · rw [hs] at h1
    simpa [dtLeB, startSkip] using h1
  · rw [hend] at h2
    simpa [dtLeB, endSkip] using h2

/-- Witness for `C3_date_range_sound` at a concrete run. -/
theorem C3_date_range_sound_witness :
    cfgMonth.start_date = some ⟨2024, 1, 1, 0, 0, 0, 0⟩ ∧
    cfgMonth.end_date = some ⟨2024, 2, 1, 0, 0, 0, 0⟩ ∧
    fetchLoop cfgMonth noUsers [PageResp.ok [sampleTopic], PageResp.ok []] =
      some [buildRecord cfgMonth noUsers sampleTopic sampleDt] ∧
    (∃ t dt, parseWireTimestamp t.created_at = some dt ∧
      dtLeB ⟨2024, 1, 1, 0, 0, 0, 0⟩ dt = true ∧
      dtLeB dt ⟨2024, 2, 1, 0, 0, 0, 0⟩ = true ∧
      buildRecord cfgMonth noUsers sampleTopic sampleDt =
        buildRecord cfgMonth noUsers t dt) := by
  refine ⟨by decide, by decide, by decide, ?_⟩
  have hs : cfgMonth.start_date = some ⟨2024, 1, 1, 0, 0, 0, 0⟩ := by decide
  have hend : cfgMonth.end_date = some ⟨2024, 2, 1, 0, 0, 0, 0⟩ := by decide
  have hf : fetchLoop cfgMonth noUsers
      [PageResp.ok [sampleTopic], PageResp.ok []] =
      some [buildRecord cfgMonth noUsers sampleTopic sampleDt] := by decide
  have hr : buildRecord cfgMonth noUsers sampleTopic sampleDt ∈
      [buildRecord cfgMonth noUsers sampleTopic sampleDt] := by decide
  exact C3_date_range_sound hs hend hf hr

/-- Claim C4: for a response sequence of two non-empty pages followed by
an empty page, pagination stops at the empty page and the result is
exactly the filtered items of the two pages, in page order
(`processPage` is the filtered item list of one page). -/
theorem C4_two_pages_then_empty {cfg : Config} {users : Nat → UserResp}
    {ts1 ts2 : List WireTopic} {rs1 rs2 : List TopicDetails}
    (ps : List PageResp) (h1 : ts1 ≠ []) (h2 : ts2 ≠ [])
    (hp1 : processPage cfg users ts1 = some rs1)
    (hp2 : processPage cfg users ts2 = some rs2) :
    fetchLoop cfg users
      (PageResp.ok ts1 :: PageResp.ok ts2 :: PageResp.ok [] :: ps) =
      some (rs1 ++ rs2) := by
  have he1 : ts1.isEmpty = false := by
    cases ts1 with
    | nil => exact absurd rfl h1
    | cons a l => rfl
  have he2 : ts2.isEmpty = false := by
    cases ts2 with
    | nil => exact absurd rfl h2
    | cons a l => rfl
  simp [fetchLoop, he1, he2, hp1, hp2]

/-- Witness for `C4_two_pages_then_empty` at a concrete run with two
singleton pages. -/
theorem C4_two_pages_then_empty_witness :
    ([sampleTopic] ≠ ([] : List WireTopic)) ∧
    ([sampleTopic2] ≠ ([] : List WireTopic)) ∧
    processPage cfgPlain noUsers [sampleTopic] =
      some [buildRecord cfgPlain noUsers sampleTopic sampleDt] ∧
    processPage cfgPlain noUsers [sampleTopic2] =
      some [buildRecord cfgPlain noUsers sampleTopic2 sampleDt] ∧
    fetchLoop cfgPlain noUsers
      [PageResp.ok [sampleTopic], PageResp.ok [sampleTopic2],
       PageResp.ok []] =
      some ([buildRecord cfgPlain noUsers sampleTopic sampleDt] ++
            [buildRecord cfgPlain noUsers sampleTopic2 sampleDt]) := by
  refine ⟨by decide, by decide, by decide, by decide, ?_⟩
  exact C4_two_pages_then_empty [] (by decide) (by decide)
    (by decide) (by decide)

/-- Claim C5: when the loop has consumed pages `0..N-1` (each with a 200
status and a non-empty topic list) and page `N` answers with a non-success
status, `fetch_all_topics` stops and returns exactly the items accumulated
from pages `0..N-1` (`consumedPages` is that accumulation); the partial
results are not discarded. -/
theorem C5_error_returns_partial {cfg : Config} {users : Nat → UserResp}
    {pre : List PageResp} {acc : List TopicDetails} (ps : List PageResp)
    (h : consumedPages cfg users pre = some acc) :
    fetchLoop cfg users (pre ++ PageResp.err :: ps) = some acc :=
  consumedPages_fetchLoop_err h ps

/-- Witness for `C5_error_returns_partial` at a concrete run: one
successful page, then a non-success status. -/
theorem C5_error_returns_partial_witness :
    consumedPages cfgPlain noUsers [PageResp.ok [sampleTopic]] =
      some [buildRecord cfgPlain noUsers sampleTopic sampleDt] ∧
    fetchLoop cfgPlain noUsers
      ([PageResp.ok [sampleTopic]] ++ PageResp.err :: []) =
      some [buildRecord cfgPlain noUsers sampleTopic sampleDt] := by
  refine ⟨by decide, ?_⟩
  exact C5_error_returns_partial [] (by decide)

/-- Claim C6: with only `FETCH_TOPIC_DESCRIPTION` enabled, a kept record's
`description` equals the source topic's (present exactly when the source
has one) and the record never gains `username`, `post_count` or
`last_posted_at`. -/
theorem C6_description_flag_independent {cfg : Config}
    {users : Nat → UserResp} {t : WireTopic} {r : TopicDetails}
    (hu : cfg.fetch_user_details = false)
    (hl : cfg.fetch_last_posted_at = false)
    (hd : cfg.fetch_topic_description = true)
    (hk : processTopic cfg users t = some (some r)) :
    r.description = t.description ∧ r.username = none ∧
    r.post_count = none ∧ r.last_posted_at = none := by
  obtain ⟨dt, hp, h1, h2, h3, rfl⟩ := processTopic_kept.mp hk
  cases hdesc : t.description <;>
    simp [buildRecord, applyEnrich, buildBase, hu, hl, hd, hdesc]

/-- Witness for `C6_description_flag_independent` on a topic that has a
description on the wire. -/
theorem C6_description_flag_independent_witness :
    cfgDesc.fetch_user_details = false ∧
    cfgDesc.fetch_last_posted_at = false ∧
    cfgDesc.fetch_topic_description = true ∧
    processTopic cfgDesc noUsers describedTopic =
      some (some (buildRecord cfgDesc noUsers describedTopic sampleDt)) ∧
    ((buildRecord cfgDesc noUsers describedTopic sampleDt).description =
        describedTopic.description ∧
      (buildRecord cfgDesc noUsers describedTopic sampleDt).username = none ∧
      (buildRecord cfgDesc noUsers describedTopic sampleDt).post_count = none ∧
      (buildRecord cfgDesc noUsers describedTopic sampleDt).last_posted_at =
        none) := by
  refine ⟨by decide, by decide, by decide, by decide, ?_⟩
  have hk : processTopic cfgDesc noUsers describedTopic =
      some (some (buildRecord cfgDesc noUsers describedTopic sampleDt)) := by
    decide
  exact C6_description_flag_independent (by decide) (by decide) (by decide) hk

/-- Claim C7: with `FETCH_USER_DETAILS` enabled, a truthy last-poster user
id and a failing user-detail fetch (and the other two flags disabled),
nothing is merged — the kept record is exactly the base record — the topic
is still appended, and the rest of the page is still processed. -/
theorem C7_failed_enrichment_keeps_base {cfg : Config}
    {users : Nat → UserResp} {t : WireTopic} {dt : Datetime} {uid : Nat}
    (hu : cfg.fetch_user_details = true)
    (hd : cfg.fetch_topic_description = false)
    (hl : cfg.fetch_last_posted_at = false)
    (hid : t.last_poster_user_id = some uid) (hnz : uid ≠ 0)
    (herr : users uid = UserResp.err)
    (hparse : parseWireTimestamp t.created_at = some dt)
    (h1 : startSkip cfg.start_date dt = false)
    (h2 : endSkip cfg.end_date dt = false)
    (h3 : keywordSkip cfg.keyword t.title = false) :
    processTopic cfg users t = some (some (buildBase t dt)) ∧
    ∀ ts, processPage cfg users (t :: ts) =
      (processPage cfg users ts).map (fun l => buildBase t dt :: l) := by
  have hrec : buildRecord cfg users t dt = buildBase t dt := by
    simp [buildRecord, applyEnrich, hu, hd, hl, hid, hnz,
          fetch_user_details, herr, mergeUserDetails]
  have hpt : processTopic cfg users t = some (some (buildBase t dt)) := by
    rw [← hrec]
    exact processTopic_kept.mpr ⟨dt, hparse, h1, h2, h3, rfl⟩
  refine ⟨hpt, fun ts => ?_⟩
  simp only [processPage, hpt]

/-- Witness for `C7_failed_enrichment_keeps_base` on a topic with
last-poster user id 42 against an endpoint on which every request fails. -/
theorem C7_failed_enrichment_keeps_base_witness :
    cfgUser.fetch_user_details = true ∧
    topicWithPoster.last_poster_user_id = some 42 ∧
    noUsers 42 = UserResp.err ∧
    (processTopic cfgUser noUsers topicWithPoster =
        some (some (buildBase topicWithPoster sampleDt)) ∧
      ∀ ts, processPage cfgUser noUsers (topicWithPoster :: ts) =
        (processPage cfgUser noUsers ts).map
          (fun l => buildBase topicWithPoster sampleDt :: l)) := by
  refine ⟨by decide, by decide, by decide, ?_⟩
  have hid : topicWithPoster.last_poster_user_id = some 42 := by decide
  have herr : noUsers 42 = UserResp.err := by decide
  have hparse : parseWireTimestamp topicWithPoster.created_at =
      some sampleDt := by decide
  exact C7_failed_enrichment_keeps_base (by decide) (by decide) (by decide)
    hid (by decide) herr hparse (by decide) (by decide) (by decide)

/-- Claim C8 (code bug).  The claim says a successful user-detail merge
leaves the base fields — in particular `created_at`, the topic's parsed
creation timestamp — unchanged.  In the code the dictionary returned by
`fetch_user_details` reuses the key `created_at` for the user's
registration timestamp, so `topic_details.update(user_details)` OVERWRITES
the topic's creation timestamp: below, the topic parsed to the datetime
2024-01-15T12:30:00 yet the kept record carries the registration string
under `created_at`. -/
theorem C8_merge_overwrites_created_at :
    parseWireTimestamp topicWithPoster.created_at = some sampleDt ∧
    (buildBase topicWithPoster sampleDt).created_at =
      CreatedAt.topicTime sampleDt ∧
    processTopic cfgUser aliceUsers topicWithPoster =
      some (some { id := 1, title := "Hello world",
                   category_id := CategoryId.id 1,
                   created_at := CreatedAt.userReg "2010-01-01T00:00:00.000Z",
                   posts_count := 3, views_count := 7, user := "bob",
                   username := some "alice", post_count := some 5,
                   description := none, last_posted_at := none }) := by
  decide

/-- Claim C9: once the loop has consumed some pages and reaches a page
holding a topic whose creation timestamp does not match the wire format,
the `ValueError` propagates out of `fetch_all_topics` — no topic list is
returned from the call — and the run dies before the export guard. -/
theorem C9_parse_failure_propagates {cfg : Config} {users : Nat → UserResp}
    {pre : List PageResp} {acc : List TopicDetails} {ts : List WireTopic}
    {t : WireTopic} (ps : List PageResp)
    (h : consumedPages cfg users pre = some acc)
    (ht : t ∈ ts) (hb : parseWireTimestamp t.created_at = none) :
    fetch_all_topics cfg
      { pages := pre ++ PageResp.ok ts :: ps, users := users } = none ∧
    ∀ catResp, mainRun cfg catResp
      { pages := pre ++ PageResp.ok ts :: ps, users := users } =
      RunResult.parseException := by
  have hbad : processPage cfg users ts = none :=
    processPage_none_of_badparse ht hb
  have hfl : fetchLoop cfg users (pre ++ PageResp.ok ts :: ps) = none :=
    consumedPages_fetchLoop_badpage h hbad ps
  refine ⟨hfl, fun catResp => ?_⟩
  simp [mainRun, fetch_all_topics, hfl]

/-- Witness for `C9_parse_failure_propagates`: one consumed page, then a
page holding `badTopic`, whose `created_at` is `"not-a-date"`. -/
theorem C9_parse_failure_propagates_witness :
    consumedPages cfgPlain noUsers [PageResp.ok [sampleTopic]] =
      some [buildRecord cfgPlain noUsers sampleTopic sampleDt] ∧
    badTopic ∈ [badTopic] ∧
    parseWireTimestamp badTopic.created_at = none ∧
    (fetch_all_topics cfgPlain
        { pages := [PageResp.ok [sampleTopic]] ++ PageResp.ok [badTopic] :: [],
          users := noUsers } = none ∧
      ∀ catResp, mainRun cfgPlain catResp
        { pages := [PageResp.ok [sampleTopic]] ++ PageResp.ok [badTopic] :: [],
          users := noUsers } = RunResult.parseException) := by
  refine ⟨by decide, by decide, by decide, ?_⟩
  have h : consumedPages cfgPlain noUsers [PageResp.ok [sampleTopic]] =
      some [buildRecord cfgPlain noUsers sampleTopic sampleDt] := by decide
  have ht : badTopic ∈ [badTopic] := by decide
  have hb : parseWireTimestamp badTopic.created_at = none := by decide
  exact C9_parse_failure_propagates [] h ht hb

/-- Claim C10 (code bug).  The claim says the three outputs are written
exactly when the run ends with a non-empty topic list and a non-empty
category map.  Below both are non-empty, yet because one fetched topic's
`category_id` (999) is not in the category map, the export raises
`KeyError` in the grouping loop before any file is opened, so nothing is
written: the run crashes instead of exporting. -/
theorem C10_export_crash_despite_nonempty_inputs :
    fetch_all_topics cfgPlain
      { pages := [PageResp.ok [unknownCatWire], PageResp.ok []],
        users := noUsers } =
      some [buildRecord cfgPlain noUsers unknownCatWire sampleDt] ∧
    ([buildRecord cfgPlain noUsers unknownCatWire sampleDt] ≠
      ([] : List TopicDetails)) ∧
    list_all_categories (CatResp.ok [(1, "General")]) = [(1, "General")] ∧
    ([(1, "General")] ≠ ([] : List (Nat × String))) ∧
    mainRun cfgPlain (CatResp.ok [(1, "General")])
      { pages := [PageResp.ok [unknownCatWire], PageResp.ok []],
        users := noUsers } = RunResult.exportCrash := by
  decide
